import Mathlib

/-!
Verification of the image-processing core of the `scrapping-facebook-data`
repository (`src/image.js`).

The JavaScript code is shallowly embedded as pure Lean functions:

* a `Buffer` is a `List Nat` of byte values; `buffer[i]` (which yields
  `undefined` out of range) is `byteAt`, returning an `Option Nat`;
* `Buffer.readUInt16BE` / `Buffer.readUInt32BE`, which throw a `RangeError`
  when the read would go out of bounds, are `readUInt16BE` / `readUInt32BE`
  returning `none` exactly in the throwing case;
* the `try { ... } catch { return null }` body of `getImageDimensions` is
  `getImageDimensionsRaw : List Nat → Except Unit (Option (Nat × Nat))`
  (an `Except.error` is a thrown exception) and `getImageDimensions`
  applies the catch, mapping every error to `none` (JS `null`);
* asynchronous I/O (HTTP responses, filesystem writes, wall-clock time) is
  modelled by passing the outcome of each external interaction as an
  explicit environment value, so that each source function becomes a pure
  function of its inputs and of those outcomes.  Wall-clock bookkeeping
  fields (`duration`, `timestamp`) and console logging are outside the model.
-/

namespace FbImages

/-- JS `buffer[i]`: `some` byte, or `none` (JS `undefined`) out of range. -/
def byteAt (buf : List Nat) (i : Nat) : Option Nat := buf[i]?

/-- JS `buffer.readUInt16BE(o)`: big-endian 16-bit read; `none` models the
`RangeError` thrown when fewer than two bytes are available at `o`. -/
def readUInt16BE (buf : List Nat) (o : Nat) : Option Nat :=
  match byteAt buf o, byteAt buf (o + 1) with
  | some b0, some b1 => some (b0 * 256 + b1)
  | _, _ => none

/-- JS `buffer.readUInt32BE(o)`: big-endian 32-bit read; `none` models the
`RangeError` thrown when fewer than four bytes are available at `o`. -/
def readUInt32BE (buf : List Nat) (o : Nat) : Option Nat :=
  match byteAt buf o, byteAt buf (o + 1), byteAt buf (o + 2), byteAt buf (o + 3) with
  | some b0, some b1, some b2, some b3 =>
      some (((b0 * 256 + b1) * 256 + b2) * 256 + b3)
  | _, _, _, _ => none

/-- The SOF test of `image.js` line 164-165: `marker = buffer[offset + 1]`
and `marker >= 0xC0 && marker <= 0xC3`.  When `buffer[offset + 1]` is
`undefined` both JS comparisons are false, hence the `none` branch. -/
def sofTest (buf : List Nat) (o : Nat) : Bool :=
  match byteAt buf (o + 1) with
  | some m => decide (0xC0 ≤ m) && decide (m ≤ 0xC3)
  | none => false

/-- The JPEG marker-scanning `while` loop of `getImageDimensions`
(`image.js` lines 161-175).  `Except.error ()` models an uncaught
`RangeError` escaping the loop (which the outer `catch` would turn into
`null`); `Except.ok none` is falling out of the loop; `Except.ok (some
(width, height))` is the `return { width, height }`. -/
def jpegScan (buf : List Nat) (offset : Nat) : Except Unit (Option (Nat × Nat)) :=
  if h : offset < buf.length - 8 then
    if byteAt buf offset = some 0xFF then
      if sofTest buf offset then
        match readUInt16BE buf (offset + 5), readUInt16BE buf (offset + 7) with
        | some hgt, some wid => Except.ok (some (wid, hgt))
        | _, _ => Except.error ()
      else
        match readUInt16BE buf (offset + 2) with
        | some len => jpegScan buf (offset + len + 2)
        | none => Except.error ()
    else
      jpegScan buf (offset + 1)
  else
    Except.ok none
termination_by buf.length - offset
decreasing_by all_goals omega

/-- The fixed 8-byte PNG signature `89 50 4E 47 0D 0A 1A 0A`. -/
def pngSignature : List Nat := [0x89, 0x50, 0x4E, 0x47, 0x0D, 0x0A, 0x1A, 0x0A]

/-- The PNG branch of `getImageDimensions` (`image.js` lines 179-183):
`buffer.subarray(0, 8).equals(pngSignature)` is `buf.take 8 = pngSignature`
(JS `subarray` clamps, so a short buffer never matches), and the two 32-bit
reads at offsets 16 and 20 throw (here: `Except.error ()`) on a buffer
shorter than 24 bytes. -/
def pngCheck (buf : List Nat) : Except Unit (Option (Nat × Nat)) :=
  if buf.take 8 = pngSignature then
    match readUInt32BE buf 16 with
    | some w =>
      match readUInt32BE buf 20 with
      | some h => Except.ok (some (w, h))
      | none => Except.error ()
    | none => Except.error ()
  else
    Except.ok none

/-- The `try`-block of `getImageDimensions` (`image.js` lines 157-185):
JPEG signature test `buffer[0] === 0xFF && buffer[1] === 0xD8`, then the
marker scan; falling through (or not matching JPEG) continues with the PNG
branch; the final `return null` is `Except.ok none`. -/
def getImageDimensionsRaw (buf : List Nat) : Except Unit (Option (Nat × Nat)) :=
  if byteAt buf 0 = some 0xFF ∧ byteAt buf 1 = some 0xD8 then
    match jpegScan buf 2 with
    | Except.error e => Except.error e
    | Except.ok (some d) => Except.ok (some d)
    | Except.ok none => pngCheck buf
  else
    pngCheck buf

/-- `getImageDimensions` (`image.js` lines 156-189): the `catch` clause
maps every thrown error to `null` (`none`). -/
def getImageDimensions (buf : List Nat) : Option (Nat × Nat) :=
  match getImageDimensionsRaw buf with
  | Except.error _ => none
  | Except.ok r => r

/-- Fuel-bounded variant of the marker-scanning loop, used to state that the
loop terminates within `buf.length` iterations: the loop condition is
checked before fuel is consumed, and `none` means the fuel ran out. -/
def jpegScanFuel (buf : List Nat) (offset : Nat) (fuel : Nat) :
    Option (Except Unit (Option (Nat × Nat))) :=
  if offset < buf.length - 8 then
    match fuel with
    | 0 => none
    | fuel' + 1 =>
      if byteAt buf offset = some 0xFF then
        if sofTest buf offset then
          match readUInt16BE buf (offset + 5), readUInt16BE buf (offset + 7) with
          | some hgt, some wid => some (Except.ok (some (wid, hgt)))
          | _, _ => some (Except.error ())
        else
          match readUInt16BE buf (offset + 2) with
          | some len => jpegScanFuel buf (offset + len + 2) fuel'
          | none => some (Except.error ())
      else
        jpegScanFuel buf (offset + 1) fuel'
  else
    some (Except.ok none)

/-- Modelled from the spec: the "reference JPEG header parser" it compares
the sniffer against.  Scanning starts at offset 2; at each segment, if the
marker code (the byte after the `0xFF`) lies in `0xC0..0xC3`, height is the
big-endian 16-bit value at offset+5 and width the one at offset+7;
otherwise the offset advances by (big-endian 16-bit length at offset+2) + 2.
Fuel caps the number of segments; a failed read yields `none`. -/
def refJpegScan (buf : List Nat) : Nat → Nat → Option (Nat × Nat)
  | _, 0 => none
  | o, fuel + 1 =>
    match byteAt buf (o + 1) with
    | none => none
    | some m =>
      if 0xC0 ≤ m ∧ m ≤ 0xC3 then
        match readUInt16BE buf (o + 5), readUInt16BE buf (o + 7) with
        | some hgt, some wid => some (wid, hgt)
        | _, _ => none
      else
        match readUInt16BE buf (o + 2) with
        | some len => refJpegScan buf (o + len + 2) fuel
        | none => none

/-- A well-formed chain of JPEG segments starting at offset `o`: every
segment starts with an `0xFF` byte, and the chain ends at a start-of-frame
marker (code in `0xC0..0xC3`) with enough bytes left (`o + 9 ≤ length`) to
read the two dimension fields at offsets +5 and +7. -/
inductive ValidSOFChain (buf : List Nat) : Nat → Prop where
  | found (o m : Nat) (hff : byteAt buf o = some 0xFF)
      (hm : byteAt buf (o + 1) = some m) (hsof : 0xC0 ≤ m ∧ m ≤ 0xC3)
      (hroom : o + 9 ≤ buf.length) : ValidSOFChain buf o
  | skip (o m len : Nat) (hff : byteAt buf o = some 0xFF)
      (hm : byteAt buf (o + 1) = some m) (hnsof : ¬(0xC0 ≤ m ∧ m ≤ 0xC3))
      (hlen : readUInt16BE buf (o + 2) = some len)
      (next : ValidSOFChain buf (o + len + 2)) : ValidSOFChain buf o

/-- The offsets the marker-scanning loop visits, as a step relation:
from an in-range offset whose byte is not `0xFF` the scan moves one byte
forward; from an in-range `0xFF` offset whose marker is not a SOF marker it
skips the whole segment. -/
inductive ScanReaches (buf : List Nat) : Nat → Nat → Prop where
  | refl (o : Nat) : ScanReaches buf o o
  | pad (o o' : Nat) (hin : o < buf.length - 8) (hff : byteAt buf o ≠ some 0xFF)
      (h : ScanReaches buf (o + 1) o') : ScanReaches buf o o'
  | seg (o o' len : Nat) (hin : o < buf.length - 8) (hff : byteAt buf o = some 0xFF)
      (hns : sofTest buf o = false) (hlen : readUInt16BE buf (o + 2) = some len)
      (h : ScanReaches buf (o + len + 2) o') : ScanReaches buf o o'

/-- `CONFIG.BATCH_SIZE` (`image.js` line 9). -/
def CONFIG.BATCH_SIZE : Nat := 5

/-- `CONFIG.MIN_FILE_SIZE` (`image.js` line 21). -/
def CONFIG.MIN_FILE_SIZE : Nat := 10000

/-- `CONFIG.SUPPORTED_FORMATS` (`image.js` line 18). -/
def CONFIG.SUPPORTED_FORMATS : List String :=
  [".jpg", ".jpeg", ".png", ".gif", ".webp", ".bmp"]

/-- Does the character list start with the pattern (second argument)? -/
def startsWithChars : List Char → List Char → Bool
  | _, [] => true
  | [], _ :: _ => false
  | c :: cs, p :: ps => c == p && startsWithChars cs ps

/-- Does the character list contain the pattern as a contiguous run? -/
def includesChars : List Char → List Char → Bool
  | [], pat => startsWithChars [] pat
  | c :: cs, pat => startsWithChars (c :: cs) pat || includesChars cs pat

/-- JS `String.prototype.includes`. -/
def strIncludes (s pat : String) : Bool := includesChars s.data pat.data

/-- JS `String.prototype.startsWith`. -/
def strStartsWith (s pat : String) : Bool := startsWithChars s.data pat.data

/-- JS `String.prototype.toLowerCase` (on the ASCII data the code handles). -/
def strToLower (s : String) : String := String.mk (s.data.map Char.toLower)

/-- `detectImageFormat` (`image.js` lines 44-63), as a function of the
pathname of the already-parsed URL (`new URL(url).pathname`) and of the
`content-type` header (JS `headers['content-type'] || ''`).  The `for`
loop over `CONFIG.SUPPORTED_FORMATS` returning the first extension the
lowercased pathname contains is `List.find?`. -/
def detectImageFormat (pathname : String) (contentType : String) : String :=
  match CONFIG.SUPPORTED_FORMATS.find? (fun fmt => strIncludes (strToLower pathname) fmt) with
  | some fmt => fmt
  | none =>
    if strIncludes contentType "jpeg" || strIncludes contentType "jpg" then ".jpg"
    else if strIncludes contentType "png" then ".png"
    else if strIncludes contentType "gif" then ".gif"
    else if strIncludes contentType "webp" then ".webp"
    else if strIncludes contentType "bmp" then ".bmp"
    else ".jpg"

/-- Helper for `replaceLastExt`: on the reversed character list, consume the
non-dot characters of the JS regex `\.[^.]+$` and return the reversed
remainder in front of the matched dot (`none` when the regex has no match).
The counter records how many non-dot characters were consumed (the `+`
requires at least one). -/
def consumeNonDots : List Char → Nat → Option (List Char)
  | [], _ => none
  | c :: cs, n => if c = '.' then (if 0 < n then some cs else none) else consumeNonDots cs (n + 1)

/-- JS `filename.replace(/\.[^.]+$/, ext)` (`image.js` line 118). -/
def replaceLastExt (s ext : String) : String :=
  match consumeNonDots s.data.reverse 0 with
  | some restRev => String.mk restRev.reverse ++ ext
  | none => s

/-- The outcome of the full HTTP GET issued by `downloadImage`: a network
error event, the download timeout firing first, or a complete response with
status code, `content-type` header and concatenated body chunks. -/
inductive FetchOutcome where
  | netError (msg : String)
  | timeout
  | response (statusCode : Nat) (contentType : String) (body : List Nat)

/-- The object `downloadImage` resolves with (`image.js` lines 125-132),
minus the `success: true` tag that is constant there. -/
structure DownloadOk where
  url : String
  filename : String
  size : Nat
  format : String
  dimensions : Option (Nat × Nat)

/-- `downloadImage` (`image.js` lines 71-149) as a pure function of the URL,
the destination filename, the pathname of the parsed URL (used by its
`detectImageFormat(url, headers)` call), the fetch outcome and the outcome
of the `fs.writeFile` call.  `Except.error` is a rejected promise; the
checks happen in source order: status code, `content-type` prefix,
minimum size, then format detection, write, and resolution. -/
def downloadImage (url filename pathname : String) (fetch : FetchOutcome)
    (writeRes : Except String Unit) : Except String DownloadOk :=
  match fetch with
  | FetchOutcome.netError msg => Except.error msg
  | FetchOutcome.timeout => Except.error "Timeout de téléchargement"
  | FetchOutcome.response status ct body =>
    if status ≠ 200 then Except.error ("HTTP " ++ toString status)
    else if strStartsWith ct "image/" = false then
      Except.error "Le contenu n\x27est pas une image"
    else if body.length < CONFIG.MIN_FILE_SIZE then
      Except.error ("Image trop petite (" ++ toString body.length ++ " bytes)")
    else
      let fmt := detectImageFormat pathname ct
      let finalFilename := replaceLastExt filename fmt
      match writeRes with
      | Except.error e => Except.error e
      | Except.ok _ => Except.ok
          { url := url, filename := finalFilename, size := body.length,
            format := fmt, dimensions := getImageDimensions body }

/-- The outcome of the HEAD-style probe issued by `checkImageUrlValidity`:
either the connection errors out or a response arrives with a status code,
`content-type` and parsed `content-length` (`0` when absent, matching
`parseInt(...) || 0`). -/
inductive HeadOutcome where
  | connError
  | response (statusCode : Nat) (contentType : String) (contentLength : Nat)

/-- The object `checkImageUrlValidity` resolves with (`image.js` lines
196-217).  Fields that are absent (`undefined`) on the connection-error
path are `Option`s. -/
structure UrlCheck where
  isValid : Bool
  isImage : Bool
  contentType : Option String
  size : Option Nat
  statusCode : Option Nat

/-- `checkImageUrlValidity` (`image.js` lines 196-217): it always resolves,
with `isValid`/`isImage` computed from the response, or with both false on
a connection error (leaving the other fields `undefined`). -/
def checkImageUrlValidity (head : HeadOutcome) : UrlCheck :=
  match head with
  | HeadOutcome.connError =>
      { isValid := false, isImage := false, contentType := none,
        size := none, statusCode := none }
  | HeadOutcome.response status ct clen =>
      { isValid := status == 200, isImage := strStartsWith ct "image/",
        contentType := some ct, size := some clen, statusCode := some status }

/-- The per-item result object (`image.js` lines 236-300).  Wall-clock
fields (`duration`, `timestamp`) are outside the model.  On a failure the
success-only fields stay `undefined` (`none`); `dimensions` is doubly
optional because on success it holds the sniffer's own nullable result. -/
structure DownloadResult where
  url : String
  index : Nat
  success : Bool
  filename : Option String := none
  fileSize : Option Nat := none
  format : Option String := none
  dimensions : Option (Option (Nat × Nat)) := none
  error : Option String := none

/-- The outcomes of every external interaction a single
`processFacebookImageUrl` call performs: the HEAD probe, URL parsing
(`new URL(url).pathname`, whose `Except.error` is the `TypeError` thrown on
an invalid URL), `Date.now()` (used only in the filename fallback), the GET
transfer, and the file write. -/
structure ItemEnv where
  head : HeadOutcome
  pathname : Except String String
  nowMs : Nat
  fetch : FetchOutcome
  writeRes : Except String Unit

/-- JS interpolation of `urlCheck.statusCode || 'erreur réseau'`. -/
def statusText (st : Option Nat) : String :=
  match st with
  | some s => if s = 0 then "erreur réseau" else toString s
  | none => "erreur réseau"

/-- JS interpolation of `urlCheck.contentType` (it prints `undefined` when
the field is absent). -/
def contentTypeText (ct : Option String) : String :=
  match ct with
  | some c => c
  | none => "undefined"

/-- The truthiness test `urlCheck.size && urlCheck.size < CONFIG.MIN_FILE_SIZE`
(`image.js` line 257): `undefined` and `0` are falsy. -/
def sizeTooSmall (check : UrlCheck) : Bool :=
  match check.size with
  | some s => decide (s ≠ 0) && decide (s < CONFIG.MIN_FILE_SIZE)
  | none => false

/-- `imageId` (`image.js` line 270):
`urlObj.pathname.split('/').pop().split('.')[0] || 'image_' + Date.now()`. -/
def computeImageId (pathname : String) (nowMs : Nat) : String :=
  let lastSeg := (pathname.splitOn "/").getLastD ""
  let firstPart := (lastSeg.splitOn ".").headD ""
  if firstPart = "" then "image_" ++ toString nowMs else firstPart

/-- The destination filename (`image.js` lines 271-272):
`path.join(CONFIG.DOWNLOAD_FOLDER, baseFilename + '.tmp')` (Node's
`path.join` normalizes the leading `./` of `./images` away). -/
def mkFilename (index : Nat) (pathname : String) (nowMs : Nat) : String :=
  "images/" ++ ("facebook_image_" ++ toString (index + 1) ++ "_" ++ computeImageId pathname nowMs) ++ ".tmp"

/-- The `try`-block of `processFacebookImageUrl` (`image.js` lines 228-289):
the three early `return`s for an invalid URL, a non-image content type and
an undersized HEAD length, then URL parsing, filename construction,
download, and the success result.  An `Except.error` is an exception or
promise rejection escaping the block. -/
def processItemBody (url : String) (index : Nat) (env : ItemEnv) :
    Except String DownloadResult :=
  let check := checkImageUrlValidity env.head
  if check.isValid = false then
    Except.ok
      { url := url, index := index + 1, success := false,
        error := some ("URL inaccessible (" ++ statusText check.statusCode ++ ")") }
  else if check.isImage = false then
    Except.ok
      { url := url, index := index + 1, success := false,
        error := some ("Le contenu n\x27est pas une image (" ++ contentTypeText check.contentType ++ ")") }
  else if sizeTooSmall check then
    Except.ok
      { url := url, index := index + 1, success := false,
        error := some ("Image trop petite (" ++ toString (check.size.getD 0) ++ " bytes)") }
  else
    match env.pathname with
    | Except.error e => Except.error e
    | Except.ok p =>
      match downloadImage url (mkFilename index p env.nowMs) p env.fetch env.writeRes with
      | Except.error e => Except.error e
      | Except.ok dl => Except.ok
          { url := url, index := index + 1, success := true,
            filename := some dl.filename, fileSize := some dl.size,
            format := some dl.format, dimensions := some dl.dimensions,
            error := none }

/-- `processFacebookImageUrl` (`image.js` lines 225-302): the `catch` clause
turns any exception or rejection into a failure result carrying the error
message. -/
def processFacebookImageUrl (url : String) (index : Nat) (env : ItemEnv) :
    DownloadResult :=
  match processItemBody url index env with
  | Except.ok r => r
  | Except.error msg =>
      { url := url, index := index + 1, success := false, error := some msg }

/-- `processBatch` (`image.js` lines 310-315):
`urlBatch.map((url, i) => proc(url, batchStartIndex + i))` joined by
`Promise.all`, which resolves with the results in input order.  The
per-item processing function is abstracted as `proc`. -/
def processBatch {R : Type} (proc : String → Nat → R) :
    List String → Nat → List R
  | [], _ => []
  | u :: rest, start => proc u start :: processBatch proc rest (start + 1)

/-- The batching `for` loop of `processFacebookImages` (`image.js` lines
337-352): slice off `CONFIG.BATCH_SIZE` URLs, process them starting at the
current index, and append the batch results (the inter-batch pause has no
effect on the result list). -/
def processBatches {R : Type} (proc : String → Nat → R) (urls : List String)
    (start : Nat) : List R :=
  if h : urls = [] then []
  else
    processBatch proc (urls.take CONFIG.BATCH_SIZE) start ++
      processBatches proc (urls.drop CONFIG.BATCH_SIZE) (start + CONFIG.BATCH_SIZE)
termination_by urls.length
decreasing_by
  simp only [List.length_drop, CONFIG.BATCH_SIZE]
  have := List.length_pos.mpr h
  omega

/-- The ordered result list of `processFacebookImages` (`image.js` lines
322-395); the summary statistics and report serialization are derived
output and outside the model. -/
def processFacebookImages {R : Type} (proc : String → Nat → R)
    (urls : List String) : List R :=
  processBatches proc urls 0

/-- The successive batches the loop of `processFacebookImages` issues:
`urls.slice(i, i + CONFIG.BATCH_SIZE)` for `i = 0, 5, 10, ...`. -/
def batches (urls : List String) : List (List String) :=
  if h : urls = [] then []
  else urls.take CONFIG.BATCH_SIZE :: batches (urls.drop CONFIG.BATCH_SIZE)
termination_by urls.length
decreasing_by
  simp only [List.length_drop, CONFIG.BATCH_SIZE]
  have := List.length_pos.mpr h
  omega

/-- A minimal JPEG: SOI marker, then a SOF0 segment announcing a 200×100
image (height `0x0064` at offset 7, width `0x00C8` at offset 9). -/
def demoJpeg : List Nat :=
  [0xFF, 0xD8, 0xFF, 0xC0, 0x00, 0x11, 0x08, 0x00, 0x64, 0x00, 0xC8]

/-- A buffer with the JPEG signature but no SOF marker in scanning range. -/
def demoNoSof : List Nat :=
  [0xFF, 0xD8, 0x00, 0x00, 0x00, 0x00, 0x00, 0x00, 0x00, 0x00, 0x00, 0x00]

/-- A complete 24-byte PNG header: signature, IHDR length and tag, width
512 and height 384. -/
def demoPng : List Nat :=
  [0x89, 0x50, 0x4E, 0x47, 0x0D, 0x0A, 0x1A, 0x0A,
   0x00, 0x00, 0x00, 0x0D, 0x49, 0x48, 0x44, 0x52,
   0x00, 0x00, 0x02, 0x00, 0x00, 0x00, 0x01, 0x80]

/-- A PNG truncated after 10 bytes. -/
def demoPngTrunc : List Nat :=
  [0x89, 0x50, 0x4E, 0x47, 0x0D, 0x0A, 0x1A, 0x0A, 0x00, 0x00]

/-- Seven placeholder URLs, the batch-splitting scenario of the spec. -/
def urls7 : List String := ["u1", "u2", "u3", "u4", "u5", "u6", "u7"]

/-- A per-item processing function that just records its arguments. -/
def tagProc : String → Nat → String × Nat := fun u i => (u, i)

/-- An environment whose HEAD probe returns a 404: the item fails at the
validity check. -/
def envFail : ItemEnv :=
  { head := HeadOutcome.response 404 "text/html" 0,
    pathname := Except.ok "/a.jpg", nowMs := 0,
    fetch := FetchOutcome.netError "unused", writeRes := Except.ok () }

/-- An environment whose GET delivers a 5120-byte (5 KB) image payload:
the HEAD probe reports no usable length, so the size check happens after
the transfer. -/
def envSmall : ItemEnv :=
  { head := HeadOutcome.response 200 "image/jpeg" 0,
    pathname := Except.ok "/p/x.jpg", nowMs := 0,
    fetch := FetchOutcome.response 200 "image/jpeg" (List.replicate 5120 0),
    writeRes := Except.ok () }

/-! ### Helper lemmas about byte reads and the marker scan -/

lemma byteAt_eq_some_of_lt (buf : List Nat) (i : Nat) (h : i < buf.length) :
    ∃ b, byteAt buf i = some b :=
  ⟨buf[i], List.getElem?_eq_getElem h⟩

lemma byteAt_eq_none_of_le (buf : List Nat) (i : Nat) (h : buf.length ≤ i) :
    byteAt buf i = none :=
  List.getElem?_eq_none h

lemma readUInt16BE_some (buf : List Nat) (o : Nat) (h : o + 1 < buf.length) :
    ∃ v, readUInt16BE buf o = some v := by
  obtain ⟨b0, h0⟩ := byteAt_eq_some_of_lt buf o (by omega)
  obtain ⟨b1, h1⟩ := byteAt_eq_some_of_lt buf (o + 1) h
  exact ⟨b0 * 256 + b1, by simp [readUInt16BE, h0, h1]⟩

lemma readUInt32BE_none_of_le (buf : List Nat) (o : Nat) (h : buf.length ≤ o + 3) :
    readUInt32BE buf o = none := by
  have h3 : byteAt buf (o + 3) = none := byteAt_eq_none_of_le buf (o + 3) h
  unfold readUInt32BE
  cases h0 : byteAt buf o <;> cases h1 : byteAt buf (o + 1) <;>
    cases h2 : byteAt buf (o + 2) <;> simp [h3]

lemma jpegScan_exit (buf : List Nat) (offset : Nat)
    (h : ¬ offset < buf.length - 8) : jpegScan buf offset = Except.ok none := by
  unfold jpegScan
  rw [dif_neg h]

lemma jpegScan_pad (buf : List Nat) (offset : Nat)
    (hin : offset < buf.length - 8) (hff : ¬ byteAt buf offset = some 0xFF) :
    jpegScan buf offset = jpegScan buf (offset + 1) := by
  conv_lhs => rw [jpegScan]
  rw [dif_pos hin, if_neg hff]

lemma jpegScan_seg (buf : List Nat) (offset len : Nat)
    (hin : offset < buf.length - 8) (hff : byteAt buf offset = some 0xFF)
    (hns : sofTest buf offset = false)
    (hlen : readUInt16BE buf (offset + 2) = some len) :
    jpegScan buf offset = jpegScan buf (offset + len + 2) := by
  conv_lhs => rw [jpegScan]
  rw [dif_pos hin, if_pos hff]
  simp only [hns, Bool.false_eq_true, if_false, hlen]

lemma jpegScan_found (buf : List Nat) (offset hgt wid : Nat)
    (hin : offset < buf.length - 8) (hff : byteAt buf offset = some 0xFF)
    (hs : sofTest buf offset = true)
    (h5 : readUInt16BE buf (offset + 5) = some hgt)
    (h7 : readUInt16BE buf (offset + 7) = some wid) :
    jpegScan buf offset = Except.ok (some (wid, hgt)) := by
  conv_lhs => rw [jpegScan]
  rw [dif_pos hin, if_pos hff]
  simp only [hs, if_true, h5, h7]

lemma jpegScanFuel_stop (buf : List Nat) (o fuel : Nat)
    (hin : ¬ o < buf.length - 8) :
    jpegScanFuel buf o fuel = some (Except.ok none) := by
  unfold jpegScanFuel
  rw [if_neg hin]

lemma jpegScanFuel_succ (buf : List Nat) (o k : Nat)
    (hin : o < buf.length - 8) :
    jpegScanFuel buf o (k + 1) =
      if byteAt buf o = some 0xFF then
        if sofTest buf o then
          match readUInt16BE buf (o + 5), readUInt16BE buf (o + 7) with
          | some hgt, some wid => some (Except.ok (some (wid, hgt)))
          | _, _ => some (Except.error ())
        else
          match readUInt16BE buf (o + 2) with
          | some len => jpegScanFuel buf (o + len + 2) k
          | none => some (Except.error ())
      else jpegScanFuel buf (o + 1) k := by
  conv_lhs => unfold jpegScanFuel
  rw [if_pos hin]

lemma jpegScan_no_sof (buf : List Nat) (o : Nat)
    (h : ∀ o', ScanReaches buf o o' → o' < buf.length - 8 →
      byteAt buf o' = some 0xFF → sofTest buf o' = false) :
    jpegScan buf o = Except.ok none := by
  by_cases hin : o < buf.length - 8
  · by_cases hff : byteAt buf o = some 0xFF
    · have hns : sofTest buf o = false := h o (ScanReaches.refl o) hin hff
      obtain ⟨len, hlen⟩ := readUInt16BE_some buf (o + 2) (by omega)
      rw [jpegScan_seg buf o len hin hff hns hlen]
      exact jpegScan_no_sof buf (o + len + 2)
        (fun o' hr => h o' (ScanReaches.seg o o' len hin hff hns hlen hr))
    · rw [jpegScan_pad buf o hin hff]
      exact jpegScan_no_sof buf (o + 1)
        (fun o' hr => h o' (ScanReaches.pad o o' hin hff hr))
  · exact jpegScan_exit buf o hin
termination_by buf.length - o
decreasing_by all_goals omega

lemma validSOFChain_room (buf : List Nat) (o : Nat) (hc : ValidSOFChain buf o) :
    o + 9 ≤ buf.length := by
  induction hc with
  | found o m hff hm hsof hroom => exact hroom
  | skip o m len hff hm hnsof hlen next ih => omega

lemma validSOFChain_scan (buf : List Nat) (o : Nat) (hc : ValidSOFChain buf o) :
    ∀ fuel, buf.length ≤ o + fuel →
      ∃ w h, jpegScan buf o = Except.ok (some (w, h)) ∧
        refJpegScan buf o fuel = some (w, h) := by
  induction hc with
  | found o m hff hm hsof hroom =>
    intro fuel hfuel
    have hin : o < buf.length - 8 := by omega
    obtain ⟨hgt, h5⟩ := readUInt16BE_some buf (o + 5) (by omega)
    obtain ⟨wid, h7⟩ := readUInt16BE_some buf (o + 7) (by omega)
    have hs : sofTest buf o = true := by
      simp only [sofTest, hm, Bool.and_eq_true, decide_eq_true_eq]
      exact hsof
    refine ⟨wid, hgt, jpegScan_found buf o hgt wid hin hff hs h5 h7, ?_⟩
    obtain ⟨k, rfl⟩ : ∃ k, fuel = k + 1 := ⟨fuel - 1, by omega⟩
    simp only [refJpegScan, hm]
    rw [if_pos hsof]
    simp only [h5, h7]
  | skip o m len hff hm hnsof hlen next ih =>
    intro fuel hfuel
    have hroom : o + len + 2 + 9 ≤ buf.length := validSOFChain_room buf _ next
    have hin : o < buf.length - 8 := by omega
    have hns : sofTest buf o = false := by
      simp only [sofTest, hm, Bool.and_eq_false_iff, decide_eq_false_iff_not]
      omega
    rw [jpegScan_seg buf o len hin hff hns hlen]
    obtain ⟨k, rfl⟩ : ∃ k, fuel = k + 1 := ⟨fuel - 1, by omega⟩
    obtain ⟨w, hh, hscan, href⟩ := ih k (by omega)
    refine ⟨w, hh, hscan, ?_⟩
    simp only [refJpegScan, hm]
    rw [if_neg hnsof]
    simp only [hlen, href]

lemma byteAt_zero_of_png (buf : List Nat) (h : buf.take 8 = pngSignature) :
    byteAt buf 0 = some 0x89 := by
  cases buf with
  | nil => simp [pngSignature] at h
  | cons a l =>
    have ha : a = 0x89 := by
      have := congrArg (fun xs => xs.head?) h
      simpa [pngSignature, List.take_succ_cons] using this
    simp [byteAt, ha]

lemma pngCheck_no_sig (buf : List Nat) (h : ¬ buf.take 8 = pngSignature) :
    pngCheck buf = Except.ok none := by
  unfold pngCheck
  rw [if_neg h]

lemma raw_not_jpeg (buf : List Nat)
    (h : ¬(byteAt buf 0 = some 0xFF ∧ byteAt buf 1 = some 0xD8)) :
    getImageDimensionsRaw buf = pngCheck buf := by
  unfold getImageDimensionsRaw
  rw [if_neg h]

lemma raw_jpeg_found (buf : List Nat) (d : Nat × Nat)
    (h0 : byteAt buf 0 = some 0xFF) (h1 : byteAt buf 1 = some 0xD8)
    (hscan : jpegScan buf 2 = Except.ok (some d)) :
    getImageDimensionsRaw buf = Except.ok (some d) := by
  unfold getImageDimensionsRaw
  rw [if_pos ⟨h0, h1⟩]
  simp only [hscan]

lemma raw_jpeg_exhausted (buf : List Nat)
    (h0 : byteAt buf 0 = some 0xFF) (h1 : byteAt buf 1 = some 0xD8)
    (hscan : jpegScan buf 2 = Except.ok none) :
    getImageDimensionsRaw buf = pngCheck buf := by
  unfold getImageDimensionsRaw
  rw [if_pos ⟨h0, h1⟩]
  simp only [hscan]

/-! ### Claim theorems for the image sniffer -/

/-- C1: For every byte buffer (of any length, including empty, truncated or
corrupt content), `getImageDimensions` returns either a width/height pair
or `none` ("no result"), and every error raised inside its try-block —
in particular an out-of-range read — is caught and mapped to `none`, so
nothing propagates as an error. -/
theorem getImageDimensions_total_never_throws (buf : List Nat) :
    ((∃ w h, getImageDimensions buf = some (w, h)) ∨ getImageDimensions buf = none) ∧
    (∀ e, getImageDimensionsRaw buf = Except.error e → getImageDimensions buf = none) := by
  constructor
  · rcases h : getImageDimensions buf with - | ⟨w, hgt⟩
    · exact Or.inr rfl
    · exact Or.inl ⟨w, hgt, rfl⟩
  · intro e he
    unfold getImageDimensions
    rw [he]

theorem getImageDimensions_total_never_throws_witness :
    getImageDimensions pngSignature = none :=
  (getImageDimensions_total_never_throws pngSignature).2 () rfl

/-- C2: For every buffer starting with `0xFF 0xD8` that contains a valid
SOF0–SOF3 segment chain, `getImageDimensions` returns exactly what the
reference JPEG header parser (`refJpegScan`, scanning from offset 2,
skipping each segment by its big-endian length + 2, and reading height at
offset+5 and width at offset+7 of the first `0xC0..0xC3` marker) returns,
and that is a width/height pair. -/
theorem getImageDimensions_jpeg_matches_reference (buf : List Nat)
    (h0 : byteAt buf 0 = some 0xFF) (h1 : byteAt buf 1 = some 0xD8)
    (hchain : ValidSOFChain buf 2) :
    getImageDimensions buf = refJpegScan buf 2 buf.length ∧
    ∃ w h, getImageDimensions buf = some (w, h) := by
  obtain ⟨w, h, hscan, href⟩ := validSOFChain_scan buf 2 hchain buf.length (by omega)
  have hraw := raw_jpeg_found buf (w, h) h0 h1 hscan
  have hdim : getImageDimensions buf = some (w, h) := by
    unfold getImageDimensions
    rw [hraw]
  exact ⟨by rw [hdim, href], w, h, hdim⟩

theorem getImageDimensions_jpeg_matches_reference_witness :
    getImageDimensions demoJpeg = refJpegScan demoJpeg 2 demoJpeg.length :=
  (getImageDimensions_jpeg_matches_reference demoJpeg rfl rfl
    (ValidSOFChain.found 2 0xC0 rfl rfl (by decide) (by decide))).1

/-- C3: For every buffer whose first 8 bytes equal the PNG signature,
`getImageDimensions` returns the big-endian 32-bit value at byte offset 16
as width and the one at byte offset 20 as height. -/
theorem getImageDimensions_png (buf : List Nat) (w h : Nat)
    (hsig : buf.take 8 = pngSignature)
    (hw : readUInt32BE buf 16 = some w) (hh : readUInt32BE buf 20 = some h) :
    getImageDimensions buf = some (w, h) := by
  have h0 := byteAt_zero_of_png buf hsig
  have hraw : getImageDimensionsRaw buf = Except.ok (some (w, h)) := by
    rw [raw_not_jpeg buf (by simp [h0])]
    unfold pngCheck
    rw [if_pos hsig]
    simp only [hw, hh]
  unfold getImageDimensions
  rw [hraw]

theorem getImageDimensions_png_witness :
    getImageDimensions demoPng = some (512, 384) :=
  getImageDimensions_png demoPng 512 384 rfl rfl rfl

/-- C6: For every buffer starting with `0xFF 0xD8` such that the scan
reaches no SOF marker (code in `0xC0..0xC3`) while in range,
`getImageDimensions` returns `none` and the try-block completes without
any error (no out-of-range read); moreover, whenever the byte at the
current offset is not `0xFF`, the scan advances by exactly one byte and
retries. -/
theorem getImageDimensions_jpeg_no_sof (buf : List Nat)
    (h0 : byteAt buf 0 = some 0xFF) (h1 : byteAt buf 1 = some 0xD8)
    (hns : ∀ o, ScanReaches buf 2 o → o < buf.length - 8 →
      byteAt buf o = some 0xFF → sofTest buf o = false) :
    getImageDimensions buf = none ∧ getImageDimensionsRaw buf = Except.ok none ∧
    (∀ o, o < buf.length - 8 → ¬ byteAt buf o = some 0xFF →
      jpegScan buf o = jpegScan buf (o + 1)) := by
  have hscan : jpegScan buf 2 = Except.ok none := jpegScan_no_sof buf 2 hns
  have hnsig : ¬ buf.take 8 = pngSignature := by
    intro hc
    have h89 := byteAt_zero_of_png buf hc
    rw [h0] at h89
    exact absurd h89 (by decide)
  have hraw : getImageDimensionsRaw buf = Except.ok none := by
    rw [raw_jpeg_exhausted buf h0 h1 hscan, pngCheck_no_sig buf hnsig]
  refine ⟨by unfold getImageDimensions; rw [hraw], hraw, ?_⟩
  intro o hin hff
  exact jpegScan_pad buf o hin hff

theorem getImageDimensions_jpeg_no_sof_witness :
    getImageDimensions demoNoSof = none := by
  have aux : ∀ o, o < demoNoSof.length - 8 → byteAt demoNoSof o = some 0xFF →
      sofTest demoNoSof o = false := by decide
  exact (getImageDimensions_jpeg_no_sof demoNoSof rfl rfl
    (fun o _ hin hff => aux o hin hff)).1

/-- C7: For every buffer shorter than 24 bytes whose initial bytes form a
(possibly truncated) PNG signature prefix, `getImageDimensions` returns
`none`. -/
theorem getImageDimensions_short_png (buf : List Nat)
    (hshort : buf.length < 24)
    (hpre : buf.take 8 = pngSignature.take buf.length) :
    getImageDimensions buf = none := by
  by_cases h8 : 8 ≤ buf.length
  · have hsig : buf.take 8 = pngSignature := by
      rw [hpre]
      exact List.take_of_length_le (by simp [pngSignature]; omega)
    have h0 := byteAt_zero_of_png buf hsig
    have hpng : pngCheck buf = Except.error () := by
      unfold pngCheck
      rw [if_pos hsig]
      have h20 : readUInt32BE buf 20 = none := readUInt32BE_none_of_le buf 20 (by omega)
      cases h16 : readUInt32BE buf 16 with
      | none => rfl
      | some w => simp only [h20]
    unfold getImageDimensions
    rw [raw_not_jpeg buf (by simp [h0]), hpng]
  · have hbuf : buf = pngSignature.take buf.length := by
      rw [← hpre]
      exact (List.take_of_length_le (by omega)).symm
    have hne : ¬ buf.take 8 = pngSignature := by
      intro hc
      have hl : (buf.take 8).length = 8 := by rw [hc]; rfl
      rw [List.length_take] at hl
      omega
    have h0 : ¬(byteAt buf 0 = some 0xFF ∧ byteAt buf 1 = some 0xD8) := by
      rintro ⟨hc0, -⟩
      rw [hbuf] at hc0
      cases hn : buf.length with
      | zero => rw [hn] at hc0; exact absurd hc0 (by decide)
      | succ k =>
        rw [hn] at hc0
        simp only [pngSignature, List.take_succ_cons, byteAt, List.getElem?_cons_zero] at hc0
        exact absurd hc0 (by decide)
    unfold getImageDimensions
    rw [raw_not_jpeg buf h0, pngCheck_no_sig buf hne]

theorem getImageDimensions_short_png_witness :
    getImageDimensions demoPngTrunc = none :=
  getImageDimensions_short_png demoPngTrunc (by decide) rfl

/-- C9: The JPEG marker-scanning loop terminates: since each iteration
strictly increases the offset (by one on a non-`0xFF` byte, otherwise by
the segment length + 2 ≥ 2) toward the bound `buf.length - 8`, any fuel
covering that distance makes the fuel-bounded loop complete with the same
result as the loop itself. -/
theorem jpegScan_terminates (buf : List Nat) (o fuel : Nat)
    (h : buf.length - 8 ≤ o + fuel) :
    jpegScanFuel buf o fuel = some (jpegScan buf o) := by
  by_cases hin : o < buf.length - 8
  · obtain ⟨k, rfl⟩ : ∃ k, fuel = k + 1 := ⟨fuel - 1, by omega⟩
    rw [jpegScanFuel_succ buf o k hin]
    by_cases hff : byteAt buf o = some 0xFF
    · rw [if_pos hff]
      cases hs : sofTest buf o with
      | true =>
        obtain ⟨hgt, h5⟩ := readUInt16BE_some buf (o + 5) (by omega)
        obtain ⟨wid, h7⟩ := readUInt16BE_some buf (o + 7) (by omega)
        rw [jpegScan_found buf o hgt wid hin hff hs h5 h7]
        simp only [if_true, h5, h7]
      | false =>
        obtain ⟨len, hlen⟩ := readUInt16BE_some buf (o + 2) (by omega)
        rw [jpegScan_seg buf o len hin hff hs hlen]
        simp only [Bool.false_eq_true, if_false, hlen]
        exact jpegScan_terminates buf (o + len + 2) k (by omega)
    · rw [if_neg hff, jpegScan_pad buf o hin hff]
      exact jpegScan_terminates buf (o + 1) k (by omega)
  · rw [jpegScan_exit buf o hin, jpegScanFuel_stop buf o fuel hin]
termination_by fuel
decreasing_by all_goals omega

theorem jpegScan_terminates_witness :
    jpegScanFuel demoJpeg 2 11 = some (jpegScan demoJpeg 2) :=
  jpegScan_terminates demoJpeg 2 11 (by decide)

/-! ### Helper lemmas about the batch runner -/

lemma processBatch_length {R : Type} (proc : String → Nat → R) :
    ∀ (b : List String) (s : Nat), (processBatch proc b s).length = b.length
  | [], _ => rfl
  | u :: rest, s => by
    simp [processBatch, processBatch_length proc rest (s + 1)]

lemma processBatch_getElem {R : Type} (proc : String → Nat → R) :
    ∀ (b : List String) (s i : Nat),
      (processBatch proc b s)[i]? = (b[i]?).map (fun u => proc u (s + i))
  | [], _, _ => by simp [processBatch]
  | u :: rest, s, 0 => by simp [processBatch]
  | u :: rest, s, i + 1 => by
    simp only [processBatch, List.getElem?_cons_succ]
    rw [processBatch_getElem proc rest (s + 1) i]
    have hidx : s + 1 + i = s + (i + 1) := by omega
    rw [hidx]

lemma processBatch_append {R : Type} (proc : String → Nat → R) :
    ∀ (a b : List String) (s : Nat),
      processBatch proc (a ++ b) s =
        processBatch proc a s ++ processBatch proc b (s + a.length)
  | [], b, s => by simp [processBatch]
  | u :: rest, b, s => by
    simp only [List.cons_append, processBatch, List.length_cons, List.append_eq,
      processBatch_append proc rest b (s + 1)]
    have hidx : s + 1 + rest.length = s + (rest.length + 1) := by omega
    rw [hidx]

lemma processBatches_eq {R : Type} (proc : String → Nat → R) :
    ∀ (urls : List String) (s : Nat),
      processBatches proc urls s = processBatch proc urls s := by
  intro urls s
  by_cases hnil : urls = []
  · subst hnil
    unfold processBatches
    rfl
  · conv_lhs => unfold processBatches
    rw [dif_neg hnil,
      processBatches_eq proc (urls.drop CONFIG.BATCH_SIZE) (s + CONFIG.BATCH_SIZE)]
    conv_rhs => rw [← List.take_append_drop CONFIG.BATCH_SIZE urls]
    rw [processBatch_append]
    by_cases h5 : CONFIG.BATCH_SIZE ≤ urls.length
    · rw [List.length_take, Nat.min_eq_left h5]
    · have hd : urls.drop CONFIG.BATCH_SIZE = [] := List.drop_eq_nil_of_le (by omega)
      rw [hd]
      simp [processBatch]
termination_by urls => urls.length
decreasing_by
  simp only [List.length_drop, CONFIG.BATCH_SIZE]
  have := List.length_pos.mpr hnil
  omega

/-! ### Claim theorem for the batch runner -/

/-- C4: For every input list of URLs, `processFacebookImages` produces
exactly one result per input item, the result at position `i` being the
per-item function applied to the URL at position `i` with global index `i`
(input order preserved); and with 7 inputs and batch size 5 exactly two
batches are issued, of sizes 5 and 2. -/
theorem processFacebookImages_order {R : Type} (proc : String → Nat → R)
    (urls : List String) :
    (processFacebookImages proc urls).length = urls.length ∧
    (∀ i, (processFacebookImages proc urls)[i]? = (urls[i]?).map (fun u => proc u i)) ∧
    (urls.length = 7 → (batches urls).map List.length = [5, 2]) := by
  refine ⟨?_, ?_, ?_⟩
  · unfold processFacebookImages
    rw [processBatches_eq, processBatch_length]
  · intro i
    unfold processFacebookImages
    rw [processBatches_eq, processBatch_getElem]
    simp
  · intro h7
    have hne : urls ≠ [] := by
      intro h
      rw [h] at h7
      simp at h7
    have hne2 : urls.drop CONFIG.BATCH_SIZE ≠ [] := by
      intro h
      have := congrArg List.length h
      rw [List.length_drop, h7] at this
      simp [CONFIG.BATCH_SIZE] at this
    have h1 : batches urls =
        urls.take CONFIG.BATCH_SIZE :: batches (urls.drop CONFIG.BATCH_SIZE) := by
      conv_lhs => unfold batches
      rw [dif_neg hne]
    have h2 : batches (urls.drop CONFIG.BATCH_SIZE) =
        (urls.drop CONFIG.BATCH_SIZE).take CONFIG.BATCH_SIZE ::
          batches ((urls.drop CONFIG.BATCH_SIZE).drop CONFIG.BATCH_SIZE) := by
      conv_lhs => unfold batches
      rw [dif_neg hne2]
    have h3 : (urls.drop CONFIG.BATCH_SIZE).drop CONFIG.BATCH_SIZE = [] := by
      apply List.drop_eq_nil_of_le
      rw [List.length_drop, h7]
      simp [CONFIG.BATCH_SIZE]
    have h4 : batches ([] : List String) = [] := by
      unfold batches
      rfl
    rw [h1, h2, h3, h4]
    simp [List.length_take, List.length_drop, h7, CONFIG.BATCH_SIZE]

theorem processFacebookImages_order_witness :
    (batches urls7).map List.length = [5, 2] :=
  (processFacebookImages_order tagProc urls7).2.2 rfl

/-! ### Claim theorem for format detection -/

/-- C10: `detectImageFormat` is total and always returns one of the six
supported extensions; the first supported extension found in the lowercased
URL pathname (checked in the fixed list order) takes precedence over the
Content-Type header, and when neither the pathname nor the Content-Type
mention a known image type the default `.jpg` is returned. -/
theorem detectImageFormat_props (p ct : String) :
    detectImageFormat p ct ∈ CONFIG.SUPPORTED_FORMATS ∧
    (∀ fmt, CONFIG.SUPPORTED_FORMATS.find? (fun f => strIncludes (strToLower p) f) = some fmt →
      detectImageFormat p ct = fmt) ∧
    (CONFIG.SUPPORTED_FORMATS.find? (fun f => strIncludes (strToLower p) f) = none →
      strIncludes ct "jpeg" = false → strIncludes ct "jpg" = false →
      strIncludes ct "png" = false → strIncludes ct "gif" = false →
      strIncludes ct "webp" = false → strIncludes ct "bmp" = false →
      detectImageFormat p ct = ".jpg") := by
  refine ⟨?_, ?_, ?_⟩
  · unfold detectImageFormat
    cases hf : CONFIG.SUPPORTED_FORMATS.find? (fun f => strIncludes (strToLower p) f) with
    | some fmt => exact List.mem_of_find?_eq_some hf
    | none =>
      split_ifs <;> simp [CONFIG.SUPPORTED_FORMATS]
  · intro fmt hf
    unfold detectImageFormat
    rw [hf]
  · intro hf hjpeg hjpg hpng hgif hwebp hbmp
    unfold detectImageFormat
    rw [hf]
    simp [hjpeg, hjpg, hpng, hgif, hwebp, hbmp]

theorem detectImageFormat_props_witness :
    detectImageFormat "/photos/Pic.PNG" "" = ".png" :=
  (detectImageFormat_props "/photos/Pic.PNG" "").2.1 ".png" (by decide)

/-! ### Claim theorems for the per-item pipeline -/

/-- C5: `processFacebookImageUrl` always returns normally with a
`DownloadResult` for the given URL and (1-based) index; whenever the result
is a failure it carries a human-readable error string, and a success is
only possible when every check passed and both URL parsing and the download
succeeded — hence every per-item failure (invalid URL, non-image content,
undersized content, timeout, download or write error) is recovered locally
as a `success := false` result and aborts nothing. -/
theorem processFacebookImageUrl_failures (url : String) (index : Nat) (env : ItemEnv) :
    (processFacebookImageUrl url index env).url = url ∧
    (processFacebookImageUrl url index env).index = index + 1 ∧
    ((processFacebookImageUrl url index env).success = false →
      ∃ msg, (processFacebookImageUrl url index env).error = some msg) ∧
    ((processFacebookImageUrl url index env).success = true →
      (checkImageUrlValidity env.head).isValid = true ∧
      (checkImageUrlValidity env.head).isImage = true ∧
      sizeTooSmall (checkImageUrlValidity env.head) = false ∧
      ∃ p dl, env.pathname = Except.ok p ∧
        downloadImage url (mkFilename index p env.nowMs) p env.fetch env.writeRes =
          Except.ok dl) := by
  by_cases hv : (checkImageUrlValidity env.head).isValid = false
  · have hres : processFacebookImageUrl url index env =
        { url := url, index := index + 1, success := false,
          error := some ("URL inaccessible (" ++
            statusText (checkImageUrlValidity env.head).statusCode ++ ")") } := by
      unfold processFacebookImageUrl processItemBody
      rw [if_pos hv]
    rw [hres]
    exact ⟨rfl, rfl, fun _ => ⟨_, rfl⟩, fun hs => by simp at hs⟩
  · by_cases hi : (checkImageUrlValidity env.head).isImage = false
    · have hres : processFacebookImageUrl url index env =
          { url := url, index := index + 1, success := false,
            error := some ("Le contenu n\x27est pas une image (" ++
              contentTypeText (checkImageUrlValidity env.head).contentType ++ ")") } := by
        unfold processFacebookImageUrl processItemBody
        rw [if_neg hv, if_pos hi]
      rw [hres]
      exact ⟨rfl, rfl, fun _ => ⟨_, rfl⟩, fun hs => by simp at hs⟩
    · by_cases hsz : sizeTooSmall (checkImageUrlValidity env.head) = true
      · have hres : processFacebookImageUrl url index env =
            { url := url, index := index + 1, success := false,
              error := some ("Image trop petite (" ++
                toString ((checkImageUrlValidity env.head).size.getD 0) ++ " bytes)") } := by
          unfold processFacebookImageUrl processItemBody
          rw [if_neg hv, if_neg hi, if_pos hsz]
        rw [hres]
        exact ⟨rfl, rfl, fun _ => ⟨_, rfl⟩, fun hs => by simp at hs⟩
      · cases hp : env.pathname with
        | error e =>
          have hres : processFacebookImageUrl url index env =
              { url := url, index := index + 1, success := false,
                error := some e } := by
            unfold processFacebookImageUrl processItemBody
            rw [if_neg hv, if_neg hi, if_neg hsz]
            simp only [hp]
          rw [hres]
          exact ⟨rfl, rfl, fun _ => ⟨e, rfl⟩, fun hs => by simp at hs⟩
        | ok p =>
          cases hd : downloadImage url (mkFilename index p env.nowMs) p env.fetch
              env.writeRes with
          | error e =>
            have hres : processFacebookImageUrl url index env =
                { url := url, index := index + 1, success := false,
                  error := some e } := by
              unfold processFacebookImageUrl processItemBody
              rw [if_neg hv, if_neg hi, if_neg hsz]
              simp only [hp, hd]
            rw [hres]
            exact ⟨rfl, rfl, fun _ => ⟨e, rfl⟩, fun hs => by simp at hs⟩
          | ok dl =>
            have hres : processFacebookImageUrl url index env =
                { url := url, index := index + 1, success := true,
                  filename := some dl.filename, fileSize := some dl.size,
                  format := some dl.format, dimensions := some dl.dimensions,
                  error := none } := by
              unfold processFacebookImageUrl processItemBody
              rw [if_neg hv, if_neg hi, if_neg hsz]
              simp only [hp, hd]
            rw [hres]
            refine ⟨rfl, rfl, fun hs => by simp at hs, fun _ => ?_⟩
            rw [Bool.not_eq_false] at hv hi
            rw [Bool.not_eq_true] at hsz
            exact ⟨hv, hi, hsz, p, dl, rfl, hd⟩

theorem processFacebookImageUrl_failures_witness :
    ∃ msg, (processFacebookImageUrl "u" 0 envFail).error = some msg :=
  (processFacebookImageUrl_failures "u" 0 envFail).2.2.1 (by decide)

lemma small_payload_result (url : String) (index : Nat)
    (env : ItemEnv) (p ct : String) (body : List Nat)
    (hv : (checkImageUrlValidity env.head).isValid = true)
    (hi : (checkImageUrlValidity env.head).isImage = true)
    (hsz : sizeTooSmall (checkImageUrlValidity env.head) = false)
    (hp : env.pathname = Except.ok p)
    (hf : env.fetch = FetchOutcome.response 200 ct body)
    (hct : strStartsWith ct "image/" = true)
    (hsmall : body.length < CONFIG.MIN_FILE_SIZE) :
    processFacebookImageUrl url index env =
      { url := url, index := index + 1, success := false,
        error := some ("Image trop petite (" ++ toString body.length ++ " bytes)") } := by
  have hdl : downloadImage url (mkFilename index p env.nowMs) p env.fetch env.writeRes =
      Except.error ("Image trop petite (" ++ toString body.length ++ " bytes)") := by
    unfold downloadImage
    simp only [hf]
    rw [if_neg (by simp), if_neg (by simp [hct]), if_pos hsmall]
  unfold processFacebookImageUrl processItemBody
  rw [if_neg (by simp [hv]), if_neg (by simp [hi]), if_neg (by simp [hsz])]
  simp only [hp, hdl]

/-- C8 (amended): For a fetched payload below the 10000-byte threshold
(with the earlier HEAD checks passing), the result has `success := false`
and an error string citing the payload's actual byte size — the message is
`Image trop petite (N bytes)` and does not contain the threshold value. -/
theorem processFacebookImageUrl_small_payload (url : String) (index : Nat)
    (env : ItemEnv) (p ct : String) (body : List Nat)
    (hv : (checkImageUrlValidity env.head).isValid = true)
    (hi : (checkImageUrlValidity env.head).isImage = true)
    (hsz : sizeTooSmall (checkImageUrlValidity env.head) = false)
    (hp : env.pathname = Except.ok p)
    (hf : env.fetch = FetchOutcome.response 200 ct body)
    (hct : strStartsWith ct "image/" = true)
    (hsmall : body.length < CONFIG.MIN_FILE_SIZE) :
    (processFacebookImageUrl url index env).success = false ∧
    (processFacebookImageUrl url index env).error =
      some ("Image trop petite (" ++ toString body.length ++ " bytes)") := by
  rw [small_payload_result url index env p ct body hv hi hsz hp hf hct hsmall]
  exact ⟨rfl, rfl⟩

theorem processFacebookImageUrl_small_payload_witness :
    (processFacebookImageUrl "u" 0 envSmall).success = false :=
  (processFacebookImageUrl_small_payload "u" 0 envSmall "/p/x.jpg" "image/jpeg"
    (List.replicate 5120 0) (by decide) (by decide) (by decide) rfl rfl
    (by decide) (by rw [List.length_replicate]; decide)).1

/-- C8, as literally stated, is false: on a 5120-byte payload the error
string is `Image trop petite (5120 bytes)`, which cites the payload's
actual size and does not contain the threshold value `10000`. -/
theorem processFacebookImageUrl_small_payload_cex :
    (processFacebookImageUrl "u" 0 envSmall).success = false ∧
    (processFacebookImageUrl "u" 0 envSmall).error =
      some "Image trop petite (5120 bytes)" ∧
    strIncludes "Image trop petite (5120 bytes)" "10000" = false := by
  have h := small_payload_result "u" 0 envSmall "/p/x.jpg" "image/jpeg"
    (List.replicate 5120 0) (by decide) (by decide) (by decide) rfl rfl
    (by decide) (by rw [List.length_replicate]; decide)
  rw [h]
  refine ⟨rfl, ?_, by decide⟩
  simp only [List.length_replicate]
  rfl

end FbImages
